import Mathlib

/-!
Verification of the remote servo controller (`src/main.rs`).

The program receives byte payloads from a BLE `on_write` callback, hands
them through a `std::sync::mpsc::sync_channel(1)` to the main loop, which
parses them as a `u8` degree, validates `degree <= 180`, and drives an
SG90 servo by programming a PWM duty value computed in 32-bit floating
point.  We embed the duty computation with an exact model of IEEE-754
binary32 round-to-nearest-even, the payload parsing, the capacity-one
channel, and the sequencing loop as a trace-producing function.
-/

attribute [local semireducible] Rat.add Rat.mul Rat.sub Rat.inv Rat.ofScientific

set_option maxRecDepth 100000

namespace ServoCtl

/-- `⌊log₂ n⌋` for `1 ≤ n < 2^256`, by binary search on the exponent
bits (we avoid `Nat.log2`, whose well-founded recursion does not
reduce): the fold keeps `acc` the largest exponent found so far with
`2 ^ acc ≤ n`. -/
def floorLog2 (n : ℕ) : ℕ :=
  [128, 64, 32, 16, 8, 4, 2, 1].foldl
    (fun acc bit => if 2 ^ (acc + bit) ≤ n then acc + bit else acc) 0

/-- `⌊log₂ q⌋` for a positive rational `q` with `2^(-256) < q < 2^256`,
i.e. the exponent of `q`'s binade (the IEEE-754 binary32 normal range is
`2^(-126)` to `2^128`, well inside).  For `q < 1` the fold finds the
largest `j` with `2 ^ j * a < b`, so `-(j+1)` is the binade
exponent. -/
def qexp (q : ℚ) : ℤ :=
  let a := q.num.toNat
  let b := q.den
  if b ≤ a then (floorLog2 (a / b) : ℤ)
  else
    let j := [128, 64, 32, 16, 8, 4, 2, 1].foldl
      (fun acc bit => if 2 ^ (acc + bit) * a < b then acc + bit else acc) 0
    Int.negSucc j

/-- Round a rational to the nearest IEEE-754 binary32 value
(round-to-nearest, ties to even), for nonnegative inputs in the normal
range; `q ≤ 0` maps to `0`.  Every value arising in this program is
nonnegative and far from both the subnormal range and overflow, so this
models the Rust `f32` arithmetic of `SG90::set_degree` exactly: the
significand `m = q / 2^s ∈ [2^23, 2^24)` is rounded to an integer with
ties to even. -/
def f32round (q : ℚ) : ℚ :=
  if q ≤ 0 then 0
  else
    let s : ℤ := qexp q - 23
    let a := q.num.toNat
    let b := q.den
    let (num, den) : ℕ × ℕ :=
      if 0 ≤ s then (a, b * 2 ^ s.toNat) else (a * 2 ^ (-s).toNat, b)
    let n := num / den
    let r := num % den
    let m : ℕ :=
      if 2 * r < den then n
      else if den < 2 * r then n + 1
      else if n % 2 = 0 then n else n + 1
    if 0 ≤ s then ((m * 2 ^ s.toNat : ℕ) : ℚ) else mkRat m (2 ^ (-s).toNat)

/-- The maximum duty value cached by `SG90::new` for the configured
14-bit LEDC timer resolution: the external LEDC driver's `get_max_duty`
returns `2^14 - 1` for `Resolution::Bits14`. -/
def max_duty : ℕ := 2 ^ 14 - 1

/-- Duty value programmed by `SG90::set_degree`:
`let duty = (degree as f32 / 1800.0) + 0.025;`
`let duty = duty * self.max_duty as f32;`
`self.ledc.set_duty(duty as u32)`.
Each `f32` operation rounds to nearest-even; the `as f32` casts round the
integers (exactly, at the magnitudes occurring here); the final `as u32`
cast truncates toward zero (clamping negatives to zero, which cannot
occur here). -/
def set_degree_duty (degree : ℕ) (maxDuty : ℕ) : ℕ :=
  let df : ℚ := f32round degree
  let md : ℚ := f32round maxDuty
  let q1 : ℚ := f32round (df / f32round 1800)
  let q2 : ℚ := f32round (q1 + f32round 0.025)
  let q3 : ℚ := f32round (q2 * md)
  (⌊q3⌋).toNat

/-- ASCII decimal digit test on a byte. -/
def isAsciiDigit (b : ℕ) : Bool := 48 ≤ b && b ≤ 57

/-- Value of a list of ASCII digit bytes read in base 10. -/
def digitsVal (ds : List ℕ) : ℕ := ds.foldl (fun acc b => acc * 10 + (b - 48)) 0

/-- Models `data.to_str_lossy().parse::<u8>()` from the main loop: the
lossy UTF-8 conversion maps ASCII bytes to themselves and anything
non-ASCII to characters that cannot be digits, and `u8::from_str`
accepts an optional leading `+` followed by one or more ASCII digits,
rejecting values above `u8::MAX = 255` (overflow) and everything
else. -/
def parseU8 (data : List ℕ) : Option ℕ :=
  let ds := if data.head? = some 43 then data.tail else data
  if ds.isEmpty || !ds.all isAsciiDigit then none
  else if digitsVal ds ≤ 255 then some (digitsVal ds) else none

/-- Observable events of the program: duty-register writes, delays, the
blocking receive, and the three `warn!` messages.  `info!` logs are
best-effort observability and are not modelled. -/
inductive Event where
  /-- `self.ledc.set_duty(duty)` succeeded with this duty value. -/
  | setDuty (duty : ℕ)
  /-- `delay::FreeRtos::delay_ms(ms)`. -/
  | delayMs (ms : ℕ)
  /-- The controller blocks in `receiver.recv()`. -/
  | recvWait
  /-- `warn!("Invalid degree: {}", degree)`. -/
  | warnInvalidDegree (d : ℕ)
  /-- `warn!("Invalid command: {}", data.as_bstr())`. -/
  | warnInvalidCommand
  /-- `warn!("is busy")` in the `on_write` callback. -/
  | warnBusy
  deriving DecidableEq

/-- Whether an event is one of the warnings. -/
def Event.isWarn : Event → Bool
  | .warnInvalidDegree _ => true
  | .warnInvalidCommand => true
  | .warnBusy => true
  | _ => false

/-- Whether an event is a duty-register write. -/
def Event.isDutyWrite : Event → Bool
  | .setDuty _ => true
  | _ => false

/-- Number of buffered commands in the capacity-one channel state. -/
def slotCount : Option (List ℕ) → ℕ
  | none => 0
  | some _ => 1

/-- `sender.try_send(data)` on the `sync_channel(1)`: succeeds exactly
when the single slot is empty; a send while the slot is full fails
immediately (without blocking) and leaves the buffered payload
unchanged. -/
def trySend (slot : Option (List ℕ)) (data : List ℕ) :
    Option (List ℕ) × Bool :=
  match slot with
  | none => (some data, true)
  | some pending => (some pending, false)

/-- The BLE `on_write` callback: forwards the raw received bytes with
`sender.try_send(data.to_vec())` and emits `warn!("is busy")` when the
send fails. -/
def onWrite (slot : Option (List ℕ)) (data : List ℕ) :
    Option (List ℕ) × List Event :=
  match trySend slot data with
  | (newSlot, true) => (newSlot, [])
  | (newSlot, false) => (newSlot, [.warnBusy])

/-- `receiver.recv()`: `none` models the blocked state (nothing
buffered); otherwise the pending payload is handed over and the slot is
emptied. -/
def recvSlot : Option (List ℕ) → Option (List ℕ × Option (List ℕ))
  | none => none
  | some pending => some (pending, none)

/-- Result of one iteration of the `loop` in `main`: either fall through
to the next blocking receive, or exit `main` with a propagated
`set_duty` error (`?`). -/
inductive StepResult where
  | next (trace : List Event)
  | fatal (trace : List Event)
  deriving DecidableEq

/-- One iteration of the `loop` in `main`, applied to the payload just
received.  `ok n` tells whether the `n`-th `set_duty` call of the
process succeeds and `k` is the index of the next call; on a failed
call the `?` operator propagates the error out of the loop. -/
def loopBody (ok : ℕ → Bool) (k : ℕ) (data : List ℕ) : StepResult × ℕ :=
  match parseU8 data with
  | some degree =>
    if 180 < degree then (.next [.warnInvalidDegree degree], k)
    else
      let dOpen := set_degree_duty degree max_duty
      if ok k then
        let dRest := set_degree_duty 0 max_duty
        if ok (k + 1) then
          (.next [.setDuty dOpen, .delayMs 1000, .setDuty dRest,
                  .delayMs 1000], k + 2)
        else (.fatal [.setDuty dOpen, .delayMs 1000], k + 2)
      else (.fatal [], k + 1)
  | none => (.next [.warnInvalidCommand], k)

/-- The `loop` of `main`, run over the finite list of payloads received
in order; each iteration starts by blocking in `receiver.recv()`
(`recvWait`).  A propagated `set_duty` error ends the trace: no later
payload is processed. -/
def runLoop (ok : ℕ → Bool) : ℕ → List (List ℕ) → List Event
  | _, [] => []
  | k, data :: rest =>
    match loopBody ok k data with
    | (.next tr, kNext) => .recvWait :: (tr ++ runLoop ok kNext rest)
    | (.fatal tr, _) => .recvWait :: tr

/-- `main` after peripheral initialization: `st90.set_degree(0)?` (call
index 0) and a 1000 ms delay precede the loop; if the startup
`set_duty` fails, `?` exits `main` before the first receive. -/
def mainRun (ok : ℕ → Bool) (payloads : List (List ℕ)) : List Event :=
  if ok 0 then
    .setDuty (set_degree_duty 0 max_duty) :: .delayMs 1000 ::
      runLoop ok 1 payloads
  else []

end ServoCtl

namespace ServoCtl

/-- C1: for every payload that parses as an unsigned integer `d ≤ 180`
(and with the duty writes succeeding), the controller executes exactly
the sequence: program the duty for angle `d`, hold 1000 ms, program the
duty for angle 0, hold 1000 ms, then return to blocking on the channel
for the next command. -/
theorem valid_command_runs_pulse_sequence (ok : ℕ → Bool) (k : ℕ)
    (data : List ℕ) (d : ℕ) (rest : List (List ℕ))
    (hparse : parseU8 data = some d) (hle : d ≤ 180)
    (h1 : ok k = true) (h2 : ok (k + 1) = true) :
    loopBody ok k data =
      (.next [.setDuty (set_degree_duty d max_duty), .delayMs 1000,
              .setDuty (set_degree_duty 0 max_duty), .delayMs 1000],
        k + 2) ∧
    runLoop ok k (data :: rest) =
      .recvWait :: .setDuty (set_degree_duty d max_duty) :: .delayMs 1000 ::
        .setDuty (set_degree_duty 0 max_duty) :: .delayMs 1000 ::
          runLoop ok (k + 2) rest := by
  have hbody : loopBody ok k data =
      (.next [.setDuty (set_degree_duty d max_duty), .delayMs 1000,
              .setDuty (set_degree_duty 0 max_duty), .delayMs 1000],
        k + 2) := by
    simp [loopBody, hparse, Nat.not_lt.mpr hle, h1, h2]
  exact ⟨hbody, by simp [runLoop, hbody]⟩

/-- Witness for C1: the payload `b"90"` at call index 1 with all duty
writes succeeding. -/
theorem valid_command_runs_pulse_sequence_spot :
    runLoop (fun _ => true) 1 [[57, 48]] =
      [.recvWait, .setDuty 1228, .delayMs 1000, .setDuty 409,
       .delayMs 1000] := by
  have h := valid_command_runs_pulse_sequence (fun _ => true) 1 [57, 48] 90
    [] (by decide) (by decide) rfl rfl
  rw [h.2]
  decide

/-- C2: an `on_write` while the channel already holds one undelivered
command drops the new bytes, emits the busy warning, does not overwrite
the buffered payload, and the channel still holds at most one
command. -/
theorem busy_write_dropped (slot : Option (List ℕ))
    (pending data : List ℕ) (h : slot = some pending) :
    onWrite slot data = (some pending, [.warnBusy]) ∧
    slotCount (onWrite slot data).1 ≤ 1 := by
  subst h
  exact ⟨rfl, by simp [onWrite, trySend, slotCount]⟩

/-- Witness for C2: a second payload arriving while `b"45"` is still
buffered. -/
theorem busy_write_dropped_spot :
    onWrite (some [52, 53]) [57, 48] = (some [52, 53], [.warnBusy]) ∧
    slotCount (onWrite (some [52, 53]) [57, 48]).1 ≤ 1 :=
  busy_write_dropped (some [52, 53]) [52, 53] [57, 48] rfl

/-- Counterexample to C3 as stated: the raw payload `b"200"`, whose
value 200 is outside [0, 180], is nevertheless placed in the handoff
channel by `on_write`; no validation happens before the channel. -/
theorem unvalidated_payload_enters_channel :
    (onWrite none [50, 48, 48]).1 = some [50, 48, 48] ∧
    parseU8 [50, 48, 48] = some 200 ∧ 180 < 200 := by
  exact ⟨rfl, by decide, by decide⟩

/-- C3 amended: `on_write` enqueues the raw bytes unvalidated; a payload
whose value lies outside [0, 180] is rejected by the controller after it
is taken from the channel, before any duty write. -/
theorem out_of_range_rejected_after_recv (ok : ℕ → Bool) (k : ℕ)
    (data : List ℕ) (d : ℕ) (hparse : parseU8 data = some d)
    (hgt : 180 < d) :
    onWrite none data = (some data, []) ∧
    loopBody ok k data = (.next [.warnInvalidDegree d], k) := by
  exact ⟨rfl, by simp [loopBody, hparse, hgt]⟩

/-- Witness for the amended C3: the payload `b"200"`. -/
theorem out_of_range_rejected_after_recv_spot :
    onWrite none [50, 48, 48] = (some [50, 48, 48], []) ∧
    loopBody (fun _ => true) 1 [50, 48, 48] =
      (.next [.warnInvalidDegree 200], 1) :=
  out_of_range_rejected_after_recv (fun _ => true) 1 [50, 48, 48] 200
    (by decide) (by decide)

/-- C5: a payload that does not parse as an unsigned integer, or parses
to a value above 180, produces exactly one warning, no duty write and no
delay, and the loop immediately returns to blocking on the channel. -/
theorem invalid_command_warns_once_no_motion (ok : ℕ → Bool) (k : ℕ)
    (data : List ℕ) (rest : List (List ℕ))
    (h : parseU8 data = none ∨ ∃ d, parseU8 data = some d ∧ 180 < d) :
    ∃ w, loopBody ok k data = (.next [w], k) ∧ w.isWarn = true ∧
      runLoop ok k (data :: rest) =
        .recvWait :: w :: runLoop ok k rest := by
  rcases h with h | ⟨d, hd, hgt⟩
  · refine ⟨.warnInvalidCommand, ?_, rfl, ?_⟩
    · simp [loopBody, h]
    · simp [runLoop, loopBody, h]
  · refine ⟨.warnInvalidDegree d, ?_, rfl, ?_⟩
    · simp [loopBody, hd, hgt]
    · simp [runLoop, loopBody, hd, hgt]

/-- Witness for C5: the payload `b"abc"`. -/
theorem invalid_command_warns_once_no_motion_spot :
    ∃ w, loopBody (fun _ => true) 1 [97, 98, 99] = (.next [w], 1) ∧
      Event.isWarn w = true ∧
      runLoop (fun _ => true) 1 [[97, 98, 99]] =
        .recvWait :: w :: runLoop (fun _ => true) 1 [] :=
  invalid_command_warns_once_no_motion (fun _ => true) 1 [97, 98, 99] []
    (Or.inl (by decide))

/-- C7: at startup, before any command can be accepted, the controller
drives the actuator to rest (0°) and holds 1000 ms; the first blocking
receive happens only after this settle delay. -/
theorem startup_rest_then_settle (ok : ℕ → Bool)
    (payloads : List (List ℕ)) (h : ok 0 = true) :
    (mainRun ok payloads).take 2 =
      [.setDuty (set_degree_duty 0 max_duty), .delayMs 1000] ∧
    ∀ e ∈ (mainRun ok payloads).take 2, e ≠ .recvWait := by
  constructor
  · simp [mainRun, h]
  · intro e he
    rw [show (mainRun ok payloads).take 2 =
      [.setDuty (set_degree_duty 0 max_duty), .delayMs 1000] by
        simp [mainRun, h]] at he
    simp only [List.mem_cons, List.not_mem_nil, or_false] at he
    rcases he with rfl | rfl <;> simp

/-- Witness for C7: no payload ever arrives; startup still runs the
rest move and settle delay. -/
theorem startup_rest_then_settle_spot :
    (mainRun (fun _ => true) []).take 2 =
      [.setDuty (set_degree_duty 0 max_duty), .delayMs 1000] ∧
    ∀ e ∈ (mainRun (fun _ => true) []).take 2, e ≠ .recvWait :=
  startup_rest_then_settle (fun _ => true) [] rfl

/-- C10: admission into the channel depends only on slot occupancy,
never on command validity: a full slot rejects any payload with the busy
warning and keeps its (arbitrary, unparsed) pending payload until
`recv` takes it; an empty slot accepts any payload. -/
theorem admission_depends_only_on_occupancy (pending data : List ℕ) :
    onWrite (some pending) data = (some pending, [.warnBusy]) ∧
    recvSlot (some pending) = some (pending, none) ∧
    onWrite none data = (some data, []) :=
  ⟨rfl, rfl, rfl⟩

end ServoCtl

namespace ServoCtl

/-- Counterexample to C4 as stated: at degree 90 the programmed duty is
1228, but rounding `((90/1800) + 0.025) * max_duty = 1228.725` to the
nearest integer gives 1229; `as u32` truncates instead of rounding. -/
theorem duty_is_not_rounded_to_nearest :
    ¬ ((set_degree_duty 90 max_duty : ℤ) =
      round ((((90 : ℚ) / 1800) + 0.025) * (max_duty : ℚ))) := by
  decide

/-- C4 amended: for every degree `d` in [0, 180], `set_degree` programs
the duty `((d/1800) + 0.025) * max_duty` truncated toward zero (the
binary32 rounding of the intermediate operations never moves the value
across an integer on this range). -/
theorem duty_is_exact_value_truncated (d : ℕ) (h : d ≤ 180) :
    set_degree_duty d max_duty =
      (⌊(((d : ℚ) / 1800) + 0.025) * (max_duty : ℚ)⌋).toNat := by
  have key : ∀ x, x < 181 → set_degree_duty x max_duty =
      (⌊(((x : ℚ) / 1800) + 0.025) * (max_duty : ℚ)⌋).toNat := by decide
  exact key d (by omega)

/-- Witness for the amended C4: degree 90 programs duty 1228. -/
theorem duty_is_exact_value_truncated_spot :
    set_degree_duty 90 max_duty =
      (⌊(((90 : ℚ) / 1800) + 0.025) * (max_duty : ℚ)⌋).toNat :=
  duty_is_exact_value_truncated 90 (by decide)

/-- C6: the programmed duty is monotonically non-decreasing in the
angle over [0, 180]. -/
theorem duty_monotone_in_degree (d1 d2 : ℕ) (h12 : d1 ≤ d2)
    (h2 : d2 ≤ 180) :
    set_degree_duty d1 max_duty ≤ set_degree_duty d2 max_duty := by
  have step : ∀ d, d < 180 → set_degree_duty d max_duty ≤
      set_degree_duty (d + 1) max_duty := by decide
  revert h12 h2
  induction d2 with
  | zero =>
    intro h12 _
    have hz : d1 = 0 := Nat.le_zero.mp h12
    subst hz
    exact le_rfl
  | succ n ih =>
    intro h12 h2
    rcases Nat.lt_succ_iff_lt_or_eq.mp (Nat.lt_succ_of_le h12) with hlt | heq
    · exact le_trans (ih (by omega) (by omega)) (step n (by omega))
    · exact le_of_eq (by rw [heq])

/-- Witness for C6: duty(45) ≤ duty(90). -/
theorem duty_monotone_in_degree_spot :
    set_degree_duty 45 max_duty ≤ set_degree_duty 90 max_duty :=
  duty_monotone_in_degree 45 90 (by decide) (by decide)

/-- C9: for every u8 degree the computed duty is strictly between 0 and
max_duty, and for degrees up to 180 it lies in
`[⌊0.025 * max_duty⌋, ⌊0.125 * max_duty⌋]`: the commanded duty never
exceeds the PWM driver's maximum and is never zero. -/
theorem duty_within_pwm_range (d : ℕ) (h : d < 256) :
    0 < set_degree_duty d max_duty ∧
    set_degree_duty d max_duty < max_duty ∧
    (d ≤ 180 →
      (⌊(0.025 : ℚ) * (max_duty : ℚ)⌋).toNat ≤ set_degree_duty d max_duty ∧
      set_degree_duty d max_duty ≤ (⌊(0.125 : ℚ) * (max_duty : ℚ)⌋).toNat) := by
  have key : ∀ x, x < 256 → 0 < set_degree_duty x max_duty ∧
      set_degree_duty x max_duty < max_duty ∧
      (x ≤ 180 →
        (⌊(0.025 : ℚ) * (max_duty : ℚ)⌋).toNat ≤ set_degree_duty x max_duty ∧
        set_degree_duty x max_duty ≤
          (⌊(0.125 : ℚ) * (max_duty : ℚ)⌋).toNat) := by decide
  exact key d h

/-- Witness for C9: degree 180 stays within the PWM range. -/
theorem duty_within_pwm_range_spot :
    0 < set_degree_duty 180 max_duty ∧
    set_degree_duty 180 max_duty < max_duty ∧
    (180 ≤ 180 →
      (⌊(0.025 : ℚ) * (max_duty : ℚ)⌋).toNat ≤ set_degree_duty 180 max_duty ∧
      set_degree_duty 180 max_duty ≤
        (⌊(0.125 : ℚ) * (max_duty : ℚ)⌋).toNat) :=
  duty_within_pwm_range 180 (by decide)

/-- C8: if a duty write fails during a move (either the move to the
commanded angle, call 1, or the return to rest, call 2), the error is
propagated: the iteration ends fatally, and the controller processes no
further command — the trace of `main` is unchanged by any payloads
after the failing one. -/
theorem duty_failure_terminates (ok : ℕ → Bool) (data : List ℕ)
    (rest : List (List ℕ)) (d : ℕ) (hparse : parseU8 data = some d)
    (hle : d ≤ 180)
    (hfail : ok 1 = false ∨ ok 2 = false) :
    (∃ tr, (loopBody ok 1 data).1 = .fatal tr) ∧
    mainRun ok (data :: rest) = mainRun ok [data] := by
  have hnl : ¬ 180 < d := Nat.not_lt.mpr hle
  rcases hfail with hf | hf
  · constructor
    · exact ⟨[], by simp [loopBody, hparse, hnl, hf]⟩
    · cases h0 : ok 0 <;>
        simp [mainRun, h0, runLoop, loopBody, hparse, hnl, hf]
  · cases h1 : ok 1
    · constructor
      · exact ⟨[], by simp [loopBody, hparse, hnl, h1]⟩
      · cases h0 : ok 0 <;>
          simp [mainRun, h0, runLoop, loopBody, hparse, hnl, h1]
    · constructor
      · exact ⟨[.setDuty (set_degree_duty d max_duty), .delayMs 1000],
          by simp [loopBody, hparse, hnl, h1, hf]⟩
      · cases h0 : ok 0 <;>
          simp [mainRun, h0, runLoop, loopBody, hparse, hnl, h1, hf]

/-- Witness for C8: the payload `b"90"` with the first in-loop duty
write failing; the later payload `b"45"` is never processed. -/
theorem duty_failure_terminates_spot :
    (∃ tr, (loopBody (fun i => !(i == 1)) 1 [57, 48]).1 =
      .fatal tr) ∧
    mainRun (fun i => !(i == 1)) [[57, 48], [52, 53]] =
      mainRun (fun i => !(i == 1)) [[57, 48]] :=
  duty_failure_terminates (fun i => !(i == 1)) [57, 48] [[52, 53]] 90
    (by decide) (by decide) (Or.inl rfl)

end ServoCtl
